import Mathlib

/-!
Shallow embedding of `src/lambda_function.py` (an AWS Lambda that relays
S3 objects referenced by SQS messages into a destination bucket).

Modelling conventions:
* Parsed JSON / dynamic Python values are `JVal` (JSON numbers are modelled
  as integers; no claim depends on float values).
* Python dictionary operations (`in`, subscription, `.get`, iteration,
  `len`, truthiness) are embedded as total Lean functions returning
  `Except PyErr _`, following CPython semantics on every `JVal` shape.
* `json.loads` is an external standard-library call; it is modelled by an
  oracle `parse : String → Option JVal` (`none` = the parse raises), wrapped
  by `loads` which also models the `TypeError` on non-string input.
* The S3 backend (`boto3` client) is an oracle `s3 : CopyRequest → CopyOutcome`
  deciding, for each issued copy request, whether the call returns, raises a
  `botocore.exceptions.ClientError` with a given error code, or raises some
  other exception.
* The environment variable `DESTINATION_BUCKET` is `env : Option String`.
* Side effects (log lines and issued copy requests) are collected in an
  event trace; log events record the level and which source log call fired.
-/

namespace S3Replicator

/-- Dynamic values: results of `json.loads` plus the values the handler
manipulates. -/
inductive JVal where
  | null : JVal
  | bool (b : Bool) : JVal
  | num (n : Int) : JVal
  | str (s : String) : JVal
  | arr (elems : List JVal) : JVal
  | obj (fields : List (String × JVal)) : JVal

/-- Python exceptions distinguished by the code under analysis. All of them
are subclasses of `Exception`, hence caught by the per-envelope
`except Exception` in `lambda_handler`. -/
inductive PyErr where
  | typeError : PyErr
  | keyError : PyErr
  | attributeError : PyErr
  | valueError : PyErr
  | clientError (code : String) : PyErr
  | otherError : PyErr
deriving DecidableEq

/-- First-match association-list lookup; Python dicts have unique keys, so
this is exactly dict lookup. -/
def lookupField : List (String × JVal) → String → Option JVal
  | [], _ => none
  | (k, v) :: rest, key => if k = key then some v else lookupField rest key

/-- Does `hay` start with `needle`? (structural, on character lists). -/
def charsStartWith : List Char → List Char → Bool
  | [], _ => true
  | _ :: _, [] => false
  | c :: cs, d :: ds => c = d && charsStartWith cs ds

/-- Does some suffix of `hay` start with `needle`? -/
def charsContain (needle : List Char) : List Char → Bool
  | [] => charsStartWith needle []
  | d :: ds => charsStartWith needle (d :: ds) || charsContain needle ds

/-- Substring test (Python `needle in hay` for strings). -/
def strContainsSub (needle hay : String) : Bool :=
  charsContain needle.toList hay.toList

/-- Python `key in v` for a string key: dict key membership, list element
membership (string equality only — a Python `str` equals no non-`str`),
substring test on strings, `TypeError` otherwise. -/
def pyContains (key : String) (v : JVal) : Except PyErr Bool :=
  match v with
  | .obj fs => .ok (lookupField fs key).isSome
  | .arr xs => .ok (xs.any fun x => match x with | .str s => s = key | _ => false)
  | .str s => .ok (strContainsSub key s)
  | _ => .error .typeError

/-- Python `v[key]` for a string key: dict lookup (`KeyError` when absent);
`TypeError` on lists, strings and scalars (string indices must be integers). -/
def pySubscript (v : JVal) (key : String) : Except PyErr JVal :=
  match v with
  | .obj fs =>
    match lookupField fs key with
    | some x => .ok x
    | none => .error .keyError
  | _ => .error .typeError

/-- Python `v.get(key, dflt)`: only dicts have `.get`; anything else raises
`AttributeError`. -/
def pyGet (v : JVal) (key : String) (dflt : JVal) : Except PyErr JVal :=
  match v with
  | .obj fs => .ok ((lookupField fs key).getD dflt)
  | _ => .error .attributeError

/-- Python iteration `for x in v`: list elements, dict keys, characters of a
string (as one-character strings); `TypeError` otherwise. -/
def pyIter : JVal → Except PyErr (List JVal)
  | .arr xs => .ok xs
  | .obj fs => .ok (fs.map fun p => .str p.1)
  | .str s => .ok (s.toList.map fun c => .str c.toString)
  | _ => .error .typeError

/-- Python `len(v)`: `TypeError` on scalars. -/
def pyLen : JVal → Except PyErr Nat
  | .arr xs => .ok xs.length
  | .obj fs => .ok fs.length
  | .str s => .ok s.length
  | _ => .error .typeError

/-- Python truthiness of a `JVal`. -/
def truthy : JVal → Bool
  | .null => false
  | .bool b => b
  | .num n => n != 0
  | .str s => s != ""
  | .arr xs => !xs.isEmpty
  | .obj fs => !fs.isEmpty

/-- Python `v == s` for a string literal `s`: true exactly when `v` is the
equal string. -/
def isStr (v : JVal) (s : String) : Bool :=
  match v with
  | .str t => t = s
  | _ => false

/-- `json.loads(v)`: `TypeError` unless `v` is a string; a failed parse
raises (`json.JSONDecodeError`, a `ValueError`). -/
def loads (parse : String → Option JVal) (v : JVal) : Except PyErr JVal :=
  match v with
  | .str s =>
    match parse s with
    | some j => .ok j
    | none => .error .valueError
  | _ => .error .typeError

/-- Logging levels used by the module. -/
inductive LogLevel where
  | info : LogLevel
  | warning : LogLevel
  | error : LogLevel
deriving DecidableEq

/-- Which source log statement fired (the formatted message text itself is
not modelled). -/
inductive LogTag where
  | processingStart : LogTag
  | copyingObject : LogTag
  | copySucceeded : LogTag
  | objectNotFound : LogTag
  | copyClientError : LogTag
  | copyUnexpectedError : LogTag
  | unexpectedMessageFormat : LogTag
  | errorProcessingMessage : LogTag
  | processingComplete : LogTag
deriving DecidableEq

/-- One call to `s3_client.copy_object`, with exactly the arguments the
source passes: `CopySource=\x7bBucket, Key\x7d`, `Bucket`, `Key`,
`MetadataDirective`. The extracted bucket/key are dynamic values. -/
structure CopyRequest where
  copySourceBucket : JVal
  copySourceKey : JVal
  bucket : String
  key : JVal
  metadataDirective : String

/-- Observable side effects of a run. -/
inductive Event where
  | log (level : LogLevel) (tag : LogTag) : Event
  | copyObject (req : CopyRequest) : Event

/-- Backend oracle answer for one `copy_object` call. -/
inductive CopyOutcome where
  | ok : CopyOutcome
  | clientError (code : String) : CopyOutcome
  | raiseOther : CopyOutcome
deriving DecidableEq

/-- The copy request `copy_s3_object` builds for source `(b, k)` and
destination bucket `dest`. -/
def mkCopyRequest (b k : JVal) (dest : String) : CopyRequest :=
  { copySourceBucket := b, copySourceKey := k, bucket := dest, key := k,
    metadataDirective := "COPY" }

/-- Embedding of `copy_s3_object(source_bucket, source_key)`
(src/lambda_function.py lines 75-112). Returns the emitted events and
either normal return or the exception that propagates to the caller.
Line 83 reads `os.environ["DESTINATION_BUCKET"]` outside the `try`, so a
missing variable raises `KeyError` before anything is logged or copied. -/
def copy_s3_object (env : Option String) (s3 : CopyRequest → CopyOutcome)
    (source_bucket source_key : JVal) : List Event × Except PyErr Unit :=
  match env with
  | none => ([], .error .keyError)
  | some destination_bucket =>
    let req := mkCopyRequest source_bucket source_key destination_bucket
    let pre := [Event.log .info .copyingObject, Event.copyObject req]
    match s3 req with
    | .ok => (pre ++ [Event.log .info .copySucceeded], .ok ())
    | .clientError code =>
      if code = "NoSuchKey" then
        (pre ++ [Event.log .warning .objectNotFound], .ok ())
      else
        (pre ++ [Event.log .error .copyClientError], .error (.clientError code))
    | .raiseOther =>
      (pre ++ [Event.log .error .copyUnexpectedError], .error .otherError)

/-- `s3_record["s3"]["bucket"]["name"]` then `s3_record["s3"]["object"]["key"]`
(lines 42-43), in source evaluation order. -/
def extractWrapped (r : JVal) : Except PyErr (JVal × JVal) :=
  match pySubscript r "s3" with
  | .error e => .error e
  | .ok s3a =>
    match pySubscript s3a "bucket" with
    | .error e => .error e
    | .ok ba =>
      match pySubscript ba "name" with
      | .error e => .error e
      | .ok bucket_name =>
        match pySubscript r "s3" with
        | .error e => .error e
        | .ok s3b =>
          match pySubscript s3b "object" with
          | .error e => .error e
          | .ok oa =>
            match pySubscript oa "key" with
            | .error e => .error e
            | .ok object_key => .ok (bucket_name, object_key)

/-- `message_body.get("bucket", ...).get("name")` and
`message_body.get("object", ...).get("key")` (lines 50-51). -/
def extractDirect (message_body : JVal) : Except PyErr (JVal × JVal) :=
  match pyGet message_body "bucket" (.obj []) with
  | .error e => .error e
  | .ok ba =>
    match pyGet ba "name" .null with
    | .error e => .error e
    | .ok bucket_name =>
      match pyGet message_body "object" (.obj []) with
      | .error e => .error e
      | .ok oa =>
        match pyGet oa "key" .null with
        | .error e => .error e
        | .ok object_key => .ok (bucket_name, object_key)

/-- The inner loop `for s3_record in message_body["Records"]` (lines 40-47):
successes accumulated so far, emitted events, and the exception (if any)
that escapes the loop to the per-envelope handler. An exception aborts the
loop, keeping the successes already counted. -/
def processInnerRecords (env : Option String) (s3 : CopyRequest → CopyOutcome) :
    List JVal → Nat × List Event × Option PyErr
  | [] => (0, [], none)
  | r :: rest =>
    match pyGet r "eventSource" .null with
    | .error e => (0, [], some e)
    | .ok ev =>
      if isStr ev "aws:s3" then
        match extractWrapped r with
        | .error e => (0, [], some e)
        | .ok (bucket_name, object_key) =>
          let out := copy_s3_object env s3 bucket_name object_key
          match out.2 with
          | .error e => (0, out.1, some e)
          | .ok _ =>
            let tail := processInnerRecords env s3 rest
            (tail.1 + 1, out.1 ++ tail.2.1, tail.2.2)
      else
        processInnerRecords env s3 rest

/-- The body of the per-envelope `try` (lines 35-58) on one SQS `record`:
`(successes gained, errors gained, events, exception escaping to the
per-envelope handler)`. The error component comes only from the
unexpected-format branch (line 58); everything else that goes wrong raises. -/
def tryProcessRecord (parse : String → Option JVal) (env : Option String)
    (s3 : CopyRequest → CopyOutcome) (record : JVal) :
    Nat × Nat × List Event × Option PyErr :=
  match pySubscript record "body" with
  | .error e => (0, 0, [], some e)
  | .ok bodyVal =>
    match loads parse bodyVal with
    | .error e => (0, 0, [], some e)
    | .ok message_body =>
      match pyContains "Records" message_body with
      | .error e => (0, 0, [], some e)
      | .ok true =>
        match pySubscript message_body "Records" with
        | .error e => (0, 0, [], some e)
        | .ok recsVal =>
          match pyIter recsVal with
          | .error e => (0, 0, [], some e)
          | .ok xs =>
            let out := processInnerRecords env s3 xs
            (out.1, 0, out.2.1, out.2.2)
      | .ok false =>
        match extractDirect message_body with
        | .error e => (0, 0, [], some e)
        | .ok (bucket_name, object_key) =>
          if truthy bucket_name && truthy object_key then
            let out := copy_s3_object env s3 bucket_name object_key
            match out.2 with
            | .ok _ => (1, 0, out.1, none)
            | .error e => (0, 0, out.1, some e)
          else
            (0, 1, [Event.log .warning .unexpectedMessageFormat], none)

/-- One iteration of the envelope loop including the per-envelope
`except Exception` handler (lines 60-63): an escaping exception is logged
and converted into one error count. -/
def processRecord (parse : String → Option JVal) (env : Option String)
    (s3 : CopyRequest → CopyOutcome) (record : JVal) :
    Nat × Nat × List Event :=
  match tryProcessRecord parse env s3 record with
  | (s, e, evs, none) => (s, e, evs)
  | (s, e, evs, some _) => (s, e + 1, evs ++ [Event.log .error .errorProcessingMessage])

/-- The envelope loop `for record in event.get("Records", [])` (line 33),
accumulating both counters and the event trace. -/
def processRecords (parse : String → Option JVal) (env : Option String)
    (s3 : CopyRequest → CopyOutcome) : List JVal → Nat × Nat × List Event
  | [] => (0, 0, [])
  | r :: rest =>
    let hd := processRecord parse env s3 r
    let tl := processRecords parse env s3 rest
    (hd.1 + tl.1, hd.2.1 + tl.2.1, hd.2.2 ++ tl.2.2)

/-- `json.dumps` of the two counters (lines 68-71):
insertion order is preserved by `json.dumps`. -/
def dumpsCounts (success_count error_count : Nat) : String :=
  "\x7b\"success_count\": " ++ toString success_count ++
    ", \"error_count\": " ++ toString error_count ++ "\x7d"

/-- The return value of the handler (lines 66-72). -/
structure HandlerResult where
  statusCode : Nat
  body : String
deriving DecidableEq

/-- Embedding of `lambda_handler(event, context)` (lines 17-72). The steps
before the loop (the `len` of `event.get("Records", [])` in the opening log line,
then iterating `event.get("Records", [])`) run outside any `try`, so their
exceptions escape the handler; everything inside the loop is absorbed by
the per-envelope handler. -/
def lambda_handler (parse : String → Option JVal) (env : Option String)
    (s3 : CopyRequest → CopyOutcome) (event : JVal) :
    Except PyErr (HandlerResult × List Event) :=
  match pyGet event "Records" (.arr []) with
  | .error e => .error e
  | .ok recordsVal =>
    match pyLen recordsVal with
    | .error e => .error e
    | .ok _ =>
      match pyIter recordsVal with
      | .error e => .error e
      | .ok records =>
        let out := processRecords parse env s3 records
        .ok ({ statusCode := 200, body := dumpsCounts out.1 out.2.1 },
          Event.log .info .processingStart ::
            (out.2.2 ++ [Event.log .info .processingComplete]))

/-- The loop of `validate_s3_notification` over `message_body["Records"]`
(lines 126-131), with Python `and` short-circuit order: a record whose
`eventSource` is not `"aws:s3"` is passed over without touching its other
fields; the first fully matching record returns `True`. -/
def validateInnerRecords : List JVal → Except PyErr Bool
  | [] => .ok false
  | r :: rest =>
    match pyGet r "eventSource" .null with
    | .error e => .error e
    | .ok ev =>
      if isStr ev "aws:s3" then
        match pyContains "s3" r with
        | .error e => .error e
        | .ok hs =>
          if hs then
            match pySubscript r "s3" with
            | .error e => .error e
            | .ok s3a =>
              match pyContains "bucket" s3a with
              | .error e => .error e
              | .ok hb =>
                if hb then
                  match pySubscript r "s3" with
                  | .error e => .error e
                  | .ok s3b =>
                    match pyContains "object" s3b with
                    | .error e => .error e
                    | .ok ho =>
                      if ho then .ok true else validateInnerRecords rest
                else validateInnerRecords rest
          else validateInnerRecords rest
      else validateInnerRecords rest

/-- Embedding of `validate_s3_notification(message_body)` (lines 115-138).
A pure function of the body alone: it takes no environment and no backend
oracle and emits no events. -/
def validate_s3_notification (message_body : JVal) : Except PyErr Bool :=
  match pyContains "Records" message_body with
  | .error e => .error e
  | .ok hr =>
    if hr then
      match pySubscript message_body "Records" with
      | .error e => .error e
      | .ok recsVal =>
        match pyIter recsVal with
        | .error e => .error e
        | .ok xs => validateInnerRecords xs
    else
      match pyContains "bucket" message_body with
      | .error e => .error e
      | .ok hb =>
        if hb then
          match pyContains "object" message_body with
          | .error e => .error e
          | .ok ho =>
            if ho then
              match pySubscript message_body "bucket" with
              | .error e => .error e
              | .ok ba =>
                match pyGet ba "name" .null with
                | .error e => .error e
                | .ok nm =>
                  if truthy nm then
                    match pySubscript message_body "object" with
                    | .error e => .error e
                    | .ok oa =>
                      match pyGet oa "key" .null with
                      | .error e => .error e
                      | .ok ky =>
                        if truthy ky then .ok true else .ok false
                  else .ok false
            else .ok false
        else .ok false

/-- Number of `copy_object` calls in a trace. -/
def countCopyEvents : List Event → Nat
  | [] => 0
  | Event.copyObject _ :: rest => countCopyEvents rest + 1
  | Event.log _ _ :: rest => countCopyEvents rest

/-- Number of processing units one envelope accounts for: the inner records
of a wrapped notification, or the envelope itself (1) in every other case.
Used to state the bound claimed by the spec: `success_count + error_count <= number of
(envelope x inner-record) units attempted`. -/
def unitsAttempted (parse : String → Option JVal) (record : JVal) : Nat :=
  match pySubscript record "body" with
  | .error _ => 1
  | .ok bodyVal =>
    match loads parse bodyVal with
    | .error _ => 1
    | .ok message_body =>
      match pyContains "Records" message_body with
      | .ok true =>
        match pySubscript message_body "Records" with
        | .ok recsVal =>
          match pyIter recsVal with
          | .ok xs => xs.length
          | .error _ => 1
        | .error _ => 1
      | _ => 1

/-- Spec-side validity of one inner record, for the refinement claim about
the reference validator: a storage event-source tag (`eventSource` equal to
`"aws:s3"`) and a populated bucket/object reference (the `s3` field of the record
is an object carrying both a `bucket` and an `object` member). Written from
the words of the spec, to be compared with `validate_s3_notification`. -/
def specInnerValid (r : JVal) : Bool :=
  match r with
  | .obj fs =>
    (match lookupField fs "eventSource" with
     | some v => isStr v "aws:s3"
     | none => false) &&
    (match lookupField fs "s3" with
     | some (.obj sfs) =>
       (lookupField sfs "bucket").isSome && (lookupField sfs "object").isSome
     | _ => false)
  | _ => false

/-- Spec-side predicate `isValidReference(body)`, written from the words of the
spec: true iff the wrapped-notification form has at least one valid inner
record, or the direct form has both a non-empty bucket name and a
non-empty object key. -/
def isValidReference_spec (message_body : JVal) : Bool :=
  match message_body with
  | .obj fs =>
    match lookupField fs "Records" with
    | some (.arr rs) => rs.any specInnerValid
    | some _ => false
    | none =>
      (match lookupField fs "bucket" with
       | some (.obj bfs) =>
         (match lookupField bfs "name" with
          | some (.str s) => s != ""
          | _ => false)
       | _ => false) &&
      (match lookupField fs "object" with
       | some (.obj ofs) =>
         (match lookupField ofs "key" with
          | some (.str s) => s != ""
          | _ => false)
       | _ => false)
  | _ => false

/-! Concrete fixtures used by witnesses and counterexamples. -/

/-- A well-formed wrapped inner record for source `(b, k)`. -/
def innerRec (b k : String) : JVal :=
  .obj [("eventSource", .str "aws:s3"),
        ("s3", .obj [("bucket", .obj [("name", .str b)]),
                     ("object", .obj [("key", .str k)])])]

/-- A well-formed direct-form body for source `(b, k)`. -/
def directBody (b k : String) : JVal :=
  .obj [("bucket", .obj [("name", .str b)]),
        ("object", .obj [("key", .str k)])]

/-- A wrapped body with two valid storage inner records. -/
def wrappedBody2 : JVal :=
  .obj [("Records", .arr [innerRec "b1" "k1", innerRec "b2" "k2"])]

/-- An SQS record whose body text is `bodyText`. -/
def mkRecord (bodyText : String) : JVal :=
  .obj [("body", .str bodyText)]

/-- A parse oracle that parses every body text to `j`. -/
def parseTo (j : JVal) : String → Option JVal := fun _ => some j

/-- An inner record that is tagged as a storage event, resolves to a
bucket/key pair, and whose copy the backend answers with success. -/
def innerCopiesOk (s3 : CopyRequest → CopyOutcome) (dest : String) (r : JVal) : Prop :=
  ∃ v b k, pyGet r "eventSource" .null = .ok v ∧ isStr v "aws:s3" = true ∧
    extractWrapped r = .ok (b, k) ∧ s3 (mkCopyRequest b k dest) = .ok

/-- An inner record that is tagged as a storage event, resolves to a
bucket/key pair, and whose copy raises a re-raised error (any exception
other than a NoSuchKey ClientError). -/
def innerCopyRaises (s3 : CopyRequest → CopyOutcome) (dest : String) (r : JVal) : Prop :=
  ∃ v b k, pyGet r "eventSource" .null = .ok v ∧ isStr v "aws:s3" = true ∧
    extractWrapped r = .ok (b, k) ∧
    (s3 (mkCopyRequest b k dest) = .raiseOther ∨
      ∃ code, code ≠ "NoSuchKey" ∧ s3 (mkCopyRequest b k dest) = .clientError code)

/-- A backend that fails (with a re-raised error) exactly on source key
k2 and succeeds elsewhere. -/
def failOnK2 : CopyRequest → CopyOutcome := fun req =>
  match req.key with
  | .str s => if s = "k2" then .raiseOther else .ok
  | _ => .ok

/-- Shape assumptions under which `validate_s3_notification` runs without
an exception: the wrapped form carries a list of inner-record objects
whose s3 field (if present) is an object, and the direct form carries
bucket/object objects whose name/key (if present) are strings. These match
the documented notification schemas. -/
def wellShapedBody (fs : List (String × JVal)) : Prop :=
  (∀ v, lookupField fs "Records" = some v → ∃ rs, v = JVal.arr rs) ∧
  (∀ rs, lookupField fs "Records" = some (JVal.arr rs) →
    ∀ r ∈ rs, ∃ rfields, r = JVal.obj rfields ∧
      ∀ v, lookupField rfields "s3" = some v → ∃ sfields, v = JVal.obj sfields) ∧
  (lookupField fs "Records" = none →
    (∀ v, lookupField fs "bucket" = some v → ∃ bfields, v = JVal.obj bfields ∧
      ∀ w, lookupField bfields "name" = some w → ∃ s, w = JVal.str s) ∧
    (∀ v, lookupField fs "object" = some v → ∃ ofields, v = JVal.obj ofields ∧
      ∀ w, lookupField ofields "key" = some w → ∃ s, w = JVal.str s))

/-! ## Claim theorems -/

/-- Claim C1: for every input batch (an event object whose Records entry,
if present, is a list of envelopes), `lambda_handler` returns normally —
never raising past the top level — with statusCode 200 regardless of the
error count, and a body serializing the integer success and error
counters; errors are reported only in-band through those counters. -/
theorem claim_C1_handler_always_returns_200 (parse : String → Option JVal)
    (env : Option String) (s3 : CopyRequest → CopyOutcome)
    (fs : List (String × JVal))
    (h : lookupField fs "Records" = none ∨
      ∃ rs, lookupField fs "Records" = some (JVal.arr rs)) :
    ∃ s e evs, lambda_handler parse env s3 (JVal.obj fs) =
      .ok ({ statusCode := 200, body := dumpsCounts s e }, evs) := by
  rcases h with h | ⟨rs, h⟩
  · simp only [lambda_handler, pyGet, h, Option.getD_none, pyLen, pyIter]
    exact ⟨_, _, _, rfl⟩
  · simp only [lambda_handler, pyGet, h, Option.getD_some, pyLen, pyIter]
    exact ⟨_, _, _, rfl⟩

/-- Witness for claim C1 at a concrete one-envelope batch. -/
theorem claim_C1_handler_always_returns_200_witness :
    ∃ s e evs,
      lambda_handler (parseTo (directBody "b" "k")) (some "d")
        (fun _ => CopyOutcome.ok)
        (JVal.obj [("Records", JVal.arr [mkRecord "m"])]) =
      .ok ({ statusCode := 200, body := dumpsCounts s e }, evs) :=
  claim_C1_handler_always_returns_200 _ _ _ _ (Or.inr ⟨[mkRecord "m"], rfl⟩)

/-- Claim C2: `copy_s3_object` distinguishes exactly two backend failure
classes. A ClientError with code NoSuchKey is logged as a warning and
swallowed — the function returns normally and the calling processor then
counts a success; any other ClientError code, and any other exception,
is logged and re-raised, and the per-envelope catch in the processor
counts one error. -/
theorem claim_C2_copy_failure_classes (dest : String)
    (s3 : CopyRequest → CopyOutcome) (b k : JVal) :
    (s3 (mkCopyRequest b k dest) = .clientError "NoSuchKey" →
      copy_s3_object (some dest) s3 b k =
        ([.log .info .copyingObject, .copyObject (mkCopyRequest b k dest),
          .log .warning .objectNotFound], .ok ())) ∧
    (∀ code, code ≠ "NoSuchKey" → s3 (mkCopyRequest b k dest) = .clientError code →
      copy_s3_object (some dest) s3 b k =
        ([.log .info .copyingObject, .copyObject (mkCopyRequest b k dest),
          .log .error .copyClientError], .error (.clientError code))) ∧
    (s3 (mkCopyRequest b k dest) = .raiseOther →
      copy_s3_object (some dest) s3 b k =
        ([.log .info .copyingObject, .copyObject (mkCopyRequest b k dest),
          .log .error .copyUnexpectedError], .error .otherError)) ∧
    (∀ parse record bodyVal mb bn kv,
      pySubscript record "body" = .ok bodyVal →
      loads parse bodyVal = .ok mb →
      pyContains "Records" mb = .ok false →
      extractDirect mb = .ok (bn, kv) →
      (truthy bn && truthy kv) = true →
      (s3 (mkCopyRequest bn kv dest) = .clientError "NoSuchKey" →
        processRecord parse (some dest) s3 record =
          (1, 0, [.log .info .copyingObject, .copyObject (mkCopyRequest bn kv dest),
            .log .warning .objectNotFound])) ∧
      (s3 (mkCopyRequest bn kv dest) = .raiseOther →
        processRecord parse (some dest) s3 record =
          (0, 1, [.log .info .copyingObject, .copyObject (mkCopyRequest bn kv dest),
            .log .error .copyUnexpectedError, .log .error .errorProcessingMessage])) ∧
      (∀ code, code ≠ "NoSuchKey" → s3 (mkCopyRequest bn kv dest) = .clientError code →
        processRecord parse (some dest) s3 record =
          (0, 1, [.log .info .copyingObject, .copyObject (mkCopyRequest bn kv dest),
            .log .error .copyClientError, .log .error .errorProcessingMessage]))) := by
  refine ⟨?_, ?_, ?_, ?_⟩
  · intro hs
    simp [copy_s3_object, hs]
  · intro code hne hs
    simp [copy_s3_object, hs, hne]
  · intro hs
    simp [copy_s3_object, hs]
  · intro parse record bodyVal mb bn kv h1 h2 h3 h4 h5
    refine ⟨?_, ?_, ?_⟩
    · intro hs
      simp [processRecord, tryProcessRecord, h1, h2, h3, h4, h5, copy_s3_object, hs]
    · intro hs
      simp [processRecord, tryProcessRecord, h1, h2, h3, h4, h5, copy_s3_object, hs]
    · intro code hne hs
      simp [processRecord, tryProcessRecord, h1, h2, h3, h4, h5, copy_s3_object, hs, hne]

/-- Witness for claim C2: a swallowed not-found and a re-raised unexpected
error, at concrete inputs. -/
theorem claim_C2_copy_failure_classes_witness :
    copy_s3_object (some "d") (fun _ => CopyOutcome.clientError "NoSuchKey")
      (.str "b") (.str "k") =
      ([.log .info .copyingObject, .copyObject (mkCopyRequest (.str "b") (.str "k") "d"),
        .log .warning .objectNotFound], .ok ()) ∧
    copy_s3_object (some "d") (fun _ => CopyOutcome.raiseOther)
      (.str "b") (.str "k") =
      ([.log .info .copyingObject, .copyObject (mkCopyRequest (.str "b") (.str "k") "d"),
        .log .error .copyUnexpectedError], .error .otherError) :=
  ⟨(claim_C2_copy_failure_classes "d" (fun _ => CopyOutcome.clientError "NoSuchKey")
      (.str "b") (.str "k")).1 rfl,
   (claim_C2_copy_failure_classes "d" (fun _ => CopyOutcome.raiseOther)
      (.str "b") (.str "k")).2.2.1 rfl⟩

/-- Counterexample to claim C4 as stated: with the destination bucket
unset, a batch with one valid direct envelope still returns statusCode 200
with the configuration failure absorbed as error_count = 1 — the error is
caught by the per-envelope handler and does not propagate to the
invocation boundary. -/
theorem claim_C4_counterexample :
    lambda_handler (parseTo (directBody "b" "k")) none (fun _ => CopyOutcome.ok)
      (JVal.obj [("Records", JVal.arr [mkRecord "m"])]) =
      .ok ({ statusCode := 200, body := dumpsCounts 0 1 },
        [.log .info .processingStart, .log .error .errorProcessingMessage,
         .log .info .processingComplete]) := rfl

/-- Claim C4 (amended): when DESTINATION_BUCKET is unset, the KeyError of
the configuration lookup on the first copy attempt is not caught inside
`copy_s3_object` — the copy aborts before any backend call or log line —
but it IS caught by the per-envelope handler of the processor, which
absorbs it into the per-envelope error count; the handler keeps returning
normally. -/
theorem claim_C4_amended (s3 : CopyRequest → CopyOutcome) :
    (∀ b k, copy_s3_object none s3 b k = ([], .error .keyError)) ∧
    (∀ parse record bodyVal mb bn kv,
      pySubscript record "body" = .ok bodyVal →
      loads parse bodyVal = .ok mb →
      pyContains "Records" mb = .ok false →
      extractDirect mb = .ok (bn, kv) →
      (truthy bn && truthy kv) = true →
      processRecord parse none s3 record =
        (0, 1, [.log .error .errorProcessingMessage])) := by
  refine ⟨fun b k => rfl, ?_⟩
  intro parse record bodyVal mb bn kv h1 h2 h3 h4 h5
  simp [processRecord, tryProcessRecord, h1, h2, h3, h4, h5, copy_s3_object]

/-- Witness for claim C4 (amended) at a concrete direct envelope. -/
theorem claim_C4_amended_witness :
    copy_s3_object none (fun _ => CopyOutcome.ok) (.str "b") (.str "k") =
      ([], .error .keyError) ∧
    processRecord (parseTo (directBody "b" "k")) none (fun _ => CopyOutcome.ok)
      (mkRecord "m") = (0, 1, [.log .error .errorProcessingMessage]) :=
  ⟨(claim_C4_amended (fun _ => CopyOutcome.ok)).1 (.str "b") (.str "k"),
   (claim_C4_amended (fun _ => CopyOutcome.ok)).2 (parseTo (directBody "b" "k"))
     (mkRecord "m") _ _ _ _ rfl rfl rfl rfl rfl⟩

/-- Claim C6: a direct-form envelope (no inner-records collection) whose
bucket name or object key resolves to a missing or empty value makes the
processor log one warning and count exactly one error, with no copy
attempted and no exception raised (the envelope completes normally). -/
theorem claim_C6_direct_missing_field (parse : String → Option JVal)
    (env : Option String) (s3 : CopyRequest → CopyOutcome)
    (record bodyVal mb bn kv : JVal)
    (h1 : pySubscript record "body" = .ok bodyVal)
    (h2 : loads parse bodyVal = .ok mb)
    (h3 : pyContains "Records" mb = .ok false)
    (h4 : extractDirect mb = .ok (bn, kv))
    (h5 : (truthy bn && truthy kv) = false) :
    processRecord parse env s3 record =
      (0, 1, [.log .warning .unexpectedMessageFormat]) := by
  simp [processRecord, tryProcessRecord, h1, h2, h3, h4, h5]

/-- Witness for claim C6: a direct envelope whose body lacks the object
key. -/
theorem claim_C6_direct_missing_field_witness :
    processRecord (parseTo (JVal.obj [("bucket", JVal.obj [("name", JVal.str "b")])]))
      (some "d") (fun _ => CopyOutcome.ok) (mkRecord "m") =
      (0, 1, [.log .warning .unexpectedMessageFormat]) :=
  claim_C6_direct_missing_field _ _ _ _ _ _ _ _ rfl rfl rfl rfl rfl

/-- Claim C10: an envelope whose body parses as JSON but not as a JSON
object (array, string, number, boolean or null) contributes exactly one
error, no copy attempt and no events besides the error log, and the rest
of the batch is still processed. -/
theorem claim_C10_nonobject_parsed_body (parse : String → Option JVal)
    (env : Option String) (s3 : CopyRequest → CopyOutcome)
    (record : JVal) (bs : String) (jv : JVal)
    (h1 : pySubscript record "body" = .ok (JVal.str bs))
    (h2 : parse bs = some jv)
    (h3 : ∀ fields, jv ≠ JVal.obj fields) :
    processRecord parse env s3 record =
      (0, 1, [.log .error .errorProcessingMessage]) ∧
    ∀ rest, processRecords parse env s3 (record :: rest) =
      ((processRecords parse env s3 rest).1,
       (processRecords parse env s3 rest).2.1 + 1,
       Event.log .error .errorProcessingMessage ::
         (processRecords parse env s3 rest).2.2) := by
  have hmain : processRecord parse env s3 record =
      (0, 1, [.log .error .errorProcessingMessage]) := by
    cases jv with
    | null => simp [processRecord, tryProcessRecord, h1, loads, h2, pyContains]
    | bool b => simp [processRecord, tryProcessRecord, h1, loads, h2, pyContains]
    | num n => simp [processRecord, tryProcessRecord, h1, loads, h2, pyContains]
    | str s =>
      cases hb : pyContains "Records" (JVal.str s) with
      | error e => simp [pyContains] at hb
      | ok b =>
        cases b <;>
        · simp only [processRecord, tryProcessRecord, h1, loads, h2, hb]
          simp [pySubscript, extractDirect, pyGet]
    | arr xs =>
      cases hb : pyContains "Records" (JVal.arr xs) with
      | error e => simp [pyContains] at hb
      | ok b =>
        cases b <;>
        · simp only [processRecord, tryProcessRecord, h1, loads, h2, hb]
          simp [pySubscript, extractDirect, pyGet]
    | obj fields => exact absurd rfl (h3 fields)
  refine ⟨hmain, fun rest => ?_⟩
  simp [processRecords, hmain, Nat.add_comm]

/-- Witness for claim C10: a body parsing to the JSON array `[1]`, followed
by a valid direct envelope that is still processed. -/
theorem claim_C10_nonobject_parsed_body_witness :
    processRecord (parseTo (JVal.arr [JVal.num 1])) (some "d")
      (fun _ => CopyOutcome.ok) (mkRecord "m") =
      (0, 1, [.log .error .errorProcessingMessage]) ∧
    ∀ rest, processRecords (parseTo (JVal.arr [JVal.num 1])) (some "d")
      (fun _ => CopyOutcome.ok) (mkRecord "m" :: rest) =
      ((processRecords (parseTo (JVal.arr [JVal.num 1])) (some "d")
          (fun _ => CopyOutcome.ok) rest).1,
       (processRecords (parseTo (JVal.arr [JVal.num 1])) (some "d")
          (fun _ => CopyOutcome.ok) rest).2.1 + 1,
       Event.log .error .errorProcessingMessage ::
         (processRecords (parseTo (JVal.arr [JVal.num 1])) (some "d")
            (fun _ => CopyOutcome.ok) rest).2.2) :=
  claim_C10_nonobject_parsed_body _ _ _ _ "m" _ rfl rfl
    (fun fields h => by simp at h)

/-- Splitting the copy-call counter over an appended trace. -/
theorem countCopyEvents_append (a b : List Event) :
    countCopyEvents (a ++ b) = countCopyEvents a + countCopyEvents b := by
  induction a with
  | nil => simp [countCopyEvents]
  | cons x a ih =>
    cases x with
    | log lv tg => simp [countCopyEvents, ih]
    | copyObject r =>
      simp only [List.cons_append, countCopyEvents, List.append_eq, ih]
      omega

/-- Claim C7: within a wrapped envelope, an inner record whose eventSource
tag is not aws:s3 is silently skipped — it contributes neither a success
nor an error and triggers no copy attempt: deleting it from the
inner-record list leaves the output of the loop (counters, trace and
escaping exception alike) unchanged. -/
theorem claim_C7_nons3_inner_skipped (env : Option String)
    (s3 : CopyRequest → CopyOutcome) (xs zs : List JVal) (r v : JVal)
    (h1 : pyGet r "eventSource" .null = .ok v)
    (h2 : isStr v "aws:s3" = false) :
    processInnerRecords env s3 (xs ++ r :: zs) =
      processInnerRecords env s3 (xs ++ zs) := by
  induction xs with
  | nil => simp [processInnerRecords, h1, h2]
  | cons x xs ih =>
    simp only [List.cons_append, processInnerRecords, List.append_eq]
    rw [ih]

/-- Witness for claim C7: a wrapper with an aws:sns inner record between
two valid storage records. -/
theorem claim_C7_nons3_inner_skipped_witness :
    processInnerRecords (some "d") (fun _ => CopyOutcome.ok)
      ([innerRec "b1" "k1"] ++ JVal.obj [("eventSource", JVal.str "aws:sns")] ::
        [innerRec "b2" "k2"]) =
      processInnerRecords (some "d") (fun _ => CopyOutcome.ok)
        ([innerRec "b1" "k1"] ++ [innerRec "b2" "k2"]) :=
  claim_C7_nons3_inner_skipped _ _ _ _ _ _ rfl rfl

/-- Counterexample to claim C3 as stated: an envelope with two valid
storage inner records where the copy of the first re-raises produces zero
successes, one error, and exactly one issued copy — the failure on the
first inner record does prevent the remaining inner record of the same
envelope from being processed and counted. -/
theorem claim_C3_counterexample :
    processRecord (parseTo wrappedBody2) (some "dest")
      (fun _ => CopyOutcome.raiseOther) (mkRecord "m") =
      (0, 1, [.log .info .copyingObject,
        .copyObject (mkCopyRequest (.str "b1") (.str "k1") "dest"),
        .log .error .copyUnexpectedError, .log .error .errorProcessingMessage]) ∧
    countCopyEvents [.log .info .copyingObject,
        .copyObject (mkCopyRequest (.str "b1") (.str "k1") "dest"),
        .log .error .copyUnexpectedError, .log .error .errorProcessingMessage] = 1 :=
  ⟨rfl, rfl⟩

/-- Claim C3 (amended): inner records of a wrapped envelope are processed
in order, and every storage inner record that is reached contributes one
success independently — a wrapper whose storage inner records all copy
successfully contributes one success per record, with one copy issued per
record. But a copy failure that re-raises aborts the envelope: the
successes already counted stand, the per-envelope catch turns the failure
into a single error, and the remaining inner records of that envelope are
neither processed (no further copy issued) nor counted. -/
theorem claim_C3_amended (s3 : CopyRequest → CopyOutcome) (dest : String) :
    (∀ xs, (∀ x ∈ xs, innerCopiesOk s3 dest x) →
      ∃ evs, processInnerRecords (some dest) s3 xs = (xs.length, evs, none) ∧
        countCopyEvents evs = xs.length) ∧
    (∀ xs r zs, (∀ x ∈ xs, innerCopiesOk s3 dest x) → innerCopyRaises s3 dest r →
      ∃ evs err, processInnerRecords (some dest) s3 (xs ++ r :: zs) =
        (xs.length, evs, some err) ∧
        countCopyEvents evs = xs.length + 1) := by
  constructor
  · intro xs hall
    induction xs with
    | nil => exact ⟨[], rfl, rfl⟩
    | cons x xs ih =>
      obtain ⟨evs0, htail, hcnt⟩ := ih (fun y hy => hall y (List.mem_cons_of_mem x hy))
      obtain ⟨v, b, k, hv, hsrc, hex, hcopy⟩ := hall x (List.mem_cons_self x xs)
      refine ⟨[Event.log .info .copyingObject, Event.copyObject (mkCopyRequest b k dest),
        Event.log .info .copySucceeded] ++ evs0, ?_, ?_⟩
      · simp [processInnerRecords, hv, hsrc, hex, copy_s3_object, hcopy, htail]
      · simp [countCopyEvents_append, countCopyEvents, hcnt, Nat.add_comm]
  · intro xs r zs hall hr
    induction xs with
    | nil =>
      obtain ⟨v, b, k, hv, hsrc, hex, hbad⟩ := hr
      rcases hbad with hbad | ⟨code, hne, hbad⟩
      · refine ⟨[Event.log .info .copyingObject, Event.copyObject (mkCopyRequest b k dest),
          Event.log .error .copyUnexpectedError], .otherError, ?_, rfl⟩
        simp [processInnerRecords, hv, hsrc, hex, copy_s3_object, hbad]
      · refine ⟨[Event.log .info .copyingObject, Event.copyObject (mkCopyRequest b k dest),
          Event.log .error .copyClientError], .clientError code, ?_, rfl⟩
        simp [processInnerRecords, hv, hsrc, hex, copy_s3_object, hbad, hne]
    | cons x xs ih =>
      obtain ⟨evs0, err, htail, hcnt⟩ := ih (fun y hy => hall y (List.mem_cons_of_mem x hy))
      obtain ⟨v, b, k, hv, hsrc, hex, hcopy⟩ := hall x (List.mem_cons_self x xs)
      refine ⟨[Event.log .info .copyingObject, Event.copyObject (mkCopyRequest b k dest),
        Event.log .info .copySucceeded] ++ evs0, err, ?_, ?_⟩
      · simp [processInnerRecords, hv, hsrc, hex, copy_s3_object, hcopy, htail]
      · simp [countCopyEvents_append, countCopyEvents, hcnt, Nat.add_comm]

/-- Witness for claim C3 (amended): a wrapper with a succeeding first
record and a second record whose copy re-raises. -/
theorem claim_C3_amended_witness :
    ∃ evs err,
      processInnerRecords (some "d") failOnK2
        ([innerRec "b1" "k1"] ++ innerRec "b2" "k2" :: []) =
        (1, evs, some err) ∧ countCopyEvents evs = 2 :=
  (claim_C3_amended failOnK2 "d").2 [innerRec "b1" "k1"] (innerRec "b2" "k2") []
    (by
      intro y hy
      simp only [List.mem_singleton] at hy
      subst hy
      exact ⟨.str "aws:s3", .str "b1", .str "k1", rfl, rfl, rfl, rfl⟩)
    ⟨.str "aws:s3", .str "b2", .str "k2", rfl, rfl, rfl, Or.inl rfl⟩

/-- Any copy call emitted by `copy_s3_object` carries the request it
builds: destination key equal to the source key, metadata directive COPY,
and the configured destination bucket. -/
theorem copyEvent_in_copy_s3_object (env : Option String)
    (s3 : CopyRequest → CopyOutcome) (b k : JVal) (req : CopyRequest)
    (h : Event.copyObject req ∈ (copy_s3_object env s3 b k).1) :
    req.key = req.copySourceKey ∧ req.copySourceBucket = b ∧
      req.metadataDirective = "COPY" ∧ env = some req.bucket := by
  cases env with
  | none => simp [copy_s3_object] at h
  | some dest =>
    have hreq : req = mkCopyRequest b k dest := by
      rcases hs : s3 (mkCopyRequest b k dest) with _ | code | _
      · simpa [copy_s3_object, hs] using h
      · by_cases hc : code = "NoSuchKey"
        · simpa [copy_s3_object, hs, hc] using h
        · simpa [copy_s3_object, hs, hc] using h
      · simpa [copy_s3_object, hs] using h
    subst hreq
    exact ⟨rfl, rfl, rfl, rfl⟩

/-- Lifting `copyEvent_in_copy_s3_object` through the inner-record loop. -/
theorem copyEvent_in_processInnerRecords (env : Option String)
    (s3 : CopyRequest → CopyOutcome) (xs : List JVal) (req : CopyRequest)
    (h : Event.copyObject req ∈ (processInnerRecords env s3 xs).2.1) :
    req.key = req.copySourceKey ∧ req.metadataDirective = "COPY" ∧
      env = some req.bucket := by
  induction xs with
  | nil => simp [processInnerRecords] at h
  | cons x xs ih =>
    rcases hev : pyGet x "eventSource" JVal.null with e | v
    · simp [processInnerRecords, hev] at h
    · cases hst : isStr v "aws:s3" with
      | false =>
        simp only [processInnerRecords, hev, hst, Bool.false_eq_true, if_false] at h
        exact ih h
      | true =>
        rcases hex : extractWrapped x with e | ⟨b, k⟩
        · simp [processInnerRecords, hev, hst, hex] at h
        · rcases hc : (copy_s3_object env s3 b k).2 with e | u
          · simp only [processInnerRecords, hev, hst, if_true, hex, hc] at h
            obtain ⟨h1, _, h3, h4⟩ := copyEvent_in_copy_s3_object env s3 b k req h
            exact ⟨h1, h3, h4⟩
          · simp only [processInnerRecords, hev, hst, if_true, hex, hc,
              List.mem_append] at h
            rcases h with h | h
            · obtain ⟨h1, _, h3, h4⟩ := copyEvent_in_copy_s3_object env s3 b k req h
              exact ⟨h1, h3, h4⟩
            · exact ih h

/-- Lifting the copy-request property through one envelope. -/
theorem copyEvent_in_processRecord (parse : String → Option JVal)
    (env : Option String) (s3 : CopyRequest → CopyOutcome) (record : JVal)
    (req : CopyRequest)
    (h : Event.copyObject req ∈ (processRecord parse env s3 record).2.2) :
    req.key = req.copySourceKey ∧ req.metadataDirective = "COPY" ∧
      env = some req.bucket := by
  have htry : Event.copyObject req ∈ (tryProcessRecord parse env s3 record).2.2.1 := by
    rcases ht : tryProcessRecord parse env s3 record with ⟨s, e, evs, exc⟩
    cases exc with
    | none =>
      simpa [processRecord, ht] using h
    | some err =>
      simp only [processRecord, ht, List.mem_append, List.mem_singleton] at h
      rcases h with h | h
      · simpa [ht] using h
      · cases h
  unfold tryProcessRecord at htry
  rcases h1 : pySubscript record "body" with e | bodyVal <;> simp only [h1] at htry
  · simp at htry
  · rcases h2 : loads parse bodyVal with e | mb <;> simp only [h2] at htry
    · simp at htry
    · rcases h3 : pyContains "Records" mb with e | hr <;> simp only [h3] at htry
      · simp at htry
      · cases hr with
        | true =>
          rcases h4 : pySubscript mb "Records" with e | recsVal <;>
            simp only [h4] at htry
          · simp at htry
          · rcases h5 : pyIter recsVal with e | xs <;> simp only [h5] at htry
            · simp at htry
            · exact copyEvent_in_processInnerRecords env s3 xs req (by simpa using htry)
        | false =>
          rcases h4 : extractDirect mb with e | p <;> simp only [h4] at htry
          · simp at htry
          · obtain ⟨bn, kv⟩ := p
            dsimp only at htry
            by_cases h5 : (truthy bn && truthy kv) = true
            · rw [if_pos h5] at htry
              rcases h6 : (copy_s3_object env s3 bn kv).2 with e | u <;>
                simp only [h6] at htry
              · obtain ⟨p1, _, p3, p4⟩ :=
                  copyEvent_in_copy_s3_object env s3 bn kv req (by simpa using htry)
                exact ⟨p1, p3, p4⟩
              · obtain ⟨p1, _, p3, p4⟩ :=
                  copyEvent_in_copy_s3_object env s3 bn kv req (by simpa using htry)
                exact ⟨p1, p3, p4⟩
            · rw [if_neg h5] at htry
              simp at htry

/-- Claim C5: every copy the processor issues goes to the configured
destination bucket, the destination key equals the source key (no
renaming or path remapping), and the object metadata is copied verbatim
from the source (metadata directive COPY). -/
theorem claim_C5_copy_targets_destination (parse : String → Option JVal)
    (env : Option String) (s3 : CopyRequest → CopyOutcome)
    (records : List JVal) (req : CopyRequest)
    (h : Event.copyObject req ∈ (processRecords parse env s3 records).2.2) :
    req.key = req.copySourceKey ∧ req.metadataDirective = "COPY" ∧
      env = some req.bucket := by
  induction records with
  | nil => simp [processRecords] at h
  | cons r records ih =>
    simp only [processRecords, List.mem_append] at h
    rcases h with h | h
    · exact copyEvent_in_processRecord parse env s3 r req h
    · exact ih h

/-- Witness for claim C5: the copy issued for source key folder/a.txt
keeps the key and targets the configured destination. -/
theorem claim_C5_copy_targets_destination_witness :
    (mkCopyRequest (.str "b") (.str "folder/a.txt") "d").key =
      (mkCopyRequest (.str "b") (.str "folder/a.txt") "d").copySourceKey ∧
    (mkCopyRequest (.str "b") (.str "folder/a.txt") "d").metadataDirective = "COPY" ∧
    (some "d" : Option String) =
      some (mkCopyRequest (.str "b") (.str "folder/a.txt") "d").bucket :=
  claim_C5_copy_targets_destination (parseTo (directBody "b" "folder/a.txt"))
    (some "d") (fun _ => CopyOutcome.ok) [mkRecord "m"]
    (mkCopyRequest (.str "b") (.str "folder/a.txt") "d")
    (show Event.copyObject (mkCopyRequest (.str "b") (.str "folder/a.txt") "d") ∈
        [Event.log .info .copyingObject,
         Event.copyObject (mkCopyRequest (.str "b") (.str "folder/a.txt") "d"),
         Event.log .info .copySucceeded]
      from List.Mem.tail _ (List.Mem.head _))

/-- Inner-loop bound: the successes accumulated by the loop, plus the one
error the per-envelope catch will add if an exception escapes it, never
exceed the number of inner records. -/
theorem processInnerRecords_counts_le (env : Option String)
    (s3 : CopyRequest → CopyOutcome) (xs : List JVal) :
    (processInnerRecords env s3 xs).1 +
      (if (processInnerRecords env s3 xs).2.2.isSome then 1 else 0) ≤
      xs.length := by
  induction xs with
  | nil => simp [processInnerRecords]
  | cons x xs ih =>
    rcases hev : pyGet x "eventSource" JVal.null with e | v
    · simp [processInnerRecords, hev]
    · cases hst : isStr v "aws:s3" with
      | false =>
        simp only [processInnerRecords, hev, hst, Bool.false_eq_true, if_false,
          List.length_cons]
        exact le_trans ih (Nat.le_succ _)
      | true =>
        rcases hex : extractWrapped x with e | p
        · simp [processInnerRecords, hev, hst, hex]
        · obtain ⟨b, k⟩ := p
          rcases hc : (copy_s3_object env s3 b k).2 with e | u
          · simp [processInnerRecords, hev, hst, hex, hc]
          · have ihh := ih
            simp only [processInnerRecords, hev, hst, if_true, hex, hc,
              List.length_cons]
            rcases htl : (processInnerRecords env s3 xs).2.2 with _ | e2 <;>
              simp only [htl] at ihh ⊢ <;> simp at ihh ⊢ <;> omega

/-- Per-envelope bound: one envelope contributes at most its unit count to
the two counters together. -/
theorem processRecord_counts_le (parse : String → Option JVal)
    (env : Option String) (s3 : CopyRequest → CopyOutcome) (record : JVal) :
    (processRecord parse env s3 record).1 +
      (processRecord parse env s3 record).2.1 ≤
      unitsAttempted parse record := by
  unfold processRecord unitsAttempted tryProcessRecord
  rcases h1 : pySubscript record "body" with e | bodyVal <;> try simp only [h1]
  · simp
  · rcases h2 : loads parse bodyVal with e | mb <;> try simp only [h2]
    · simp
    · rcases h3 : pyContains "Records" mb with e | hr <;> try simp only [h3]
      · simp
      · cases hr
        case false =>
          rcases h4 : extractDirect mb with e | p <;> try simp only [h4]
          · simp
          · obtain ⟨bn, kv⟩ := p
            by_cases h5 : (truthy bn && truthy kv) = true
            · rcases h6 : (copy_s3_object env s3 bn kv).2 with e | u
              · simp [h5, h6]
              · simp [h5, h6]
            · simp [h5]
        case true =>
          rcases h4 : pySubscript mb "Records" with e | recsVal <;>
            try simp only [h4]
          · simp
          · rcases h5 : pyIter recsVal with e | xs <;> try simp only [h5]
            · simp
            · have hle := processInnerRecords_counts_le env s3 xs
              rcases htl : (processInnerRecords env s3 xs).2.2 with _ | e2 <;>
                simp only [htl] at hle ⊢ <;> simp at hle ⊢ <;> omega

/-- Claim C8 (total isolation): over any batch, success_count plus
error_count never exceeds the number of envelope-times-inner-record units
attempted, and the handler always returns a statusCode-200 result carrying
those counters — never an unhandled failure. -/
theorem claim_C8_total_isolation (parse : String → Option JVal)
    (env : Option String) (s3 : CopyRequest → CopyOutcome) :
    (∀ records, (processRecords parse env s3 records).1 +
        (processRecords parse env s3 records).2.1 ≤
        (records.map (unitsAttempted parse)).sum) ∧
    (∀ fs rs, lookupField fs "Records" = some (JVal.arr rs) →
      ∃ evs, lambda_handler parse env s3 (JVal.obj fs) =
        .ok ({ statusCode := 200,
               body := dumpsCounts (processRecords parse env s3 rs).1
                 (processRecords parse env s3 rs).2.1 }, evs) ∧
        (processRecords parse env s3 rs).1 +
          (processRecords parse env s3 rs).2.1 ≤
          (rs.map (unitsAttempted parse)).sum) := by
  have hrec : ∀ records, (processRecords parse env s3 records).1 +
      (processRecords parse env s3 records).2.1 ≤
      (records.map (unitsAttempted parse)).sum := by
    intro records
    induction records with
    | nil => simp [processRecords]
    | cons r records ih =>
      have h1 := processRecord_counts_le parse env s3 r
      simp only [processRecords, List.map_cons, List.sum_cons]
      omega
  refine ⟨hrec, ?_⟩
  intro fs rs h
  refine ⟨Event.log .info .processingStart ::
    ((processRecords parse env s3 rs).2.2 ++ [Event.log .info .processingComplete]),
    ?_, hrec rs⟩
  simp only [lambda_handler, pyGet, h, Option.getD_some, pyLen, pyIter]

/-- Witness for claim C8 at a concrete one-envelope batch. -/
theorem claim_C8_total_isolation_witness :
    ∃ evs, lambda_handler (parseTo (directBody "b" "k")) (some "d")
        (fun _ => CopyOutcome.ok)
        (JVal.obj [("Records", JVal.arr [mkRecord "m"])]) =
      .ok ({ statusCode := 200,
             body := dumpsCounts
               (processRecords (parseTo (directBody "b" "k")) (some "d")
                 (fun _ => CopyOutcome.ok) [mkRecord "m"]).1
               (processRecords (parseTo (directBody "b" "k")) (some "d")
                 (fun _ => CopyOutcome.ok) [mkRecord "m"]).2.1 }, evs) ∧
      (processRecords (parseTo (directBody "b" "k")) (some "d")
          (fun _ => CopyOutcome.ok) [mkRecord "m"]).1 +
        (processRecords (parseTo (directBody "b" "k")) (some "d")
          (fun _ => CopyOutcome.ok) [mkRecord "m"]).2.1 ≤
        ([mkRecord "m"].map (unitsAttempted (parseTo (directBody "b" "k")))).sum :=
  (claim_C8_total_isolation (parseTo (directBody "b" "k")) (some "d")
    (fun _ => CopyOutcome.ok)).2 [("Records", JVal.arr [mkRecord "m"])]
    [mkRecord "m"] rfl

/-- Under the documented record shapes, the validator loop agrees with the
spec-side per-record predicate: it returns true exactly when some inner
record is valid. -/
theorem validateInnerRecords_eq_spec (rs : List JVal)
    (hshape : ∀ r ∈ rs, ∃ rfields, r = JVal.obj rfields ∧
      ∀ v, lookupField rfields "s3" = some v → ∃ sfields, v = JVal.obj sfields) :
    validateInnerRecords rs = .ok (rs.any specInnerValid) := by
  induction rs with
  | nil => rfl
  | cons r rs ih =>
    obtain ⟨rfields, rfl, hs3⟩ := hshape r (List.mem_cons_self r rs)
    have ihh := ih (fun y hy => hshape y (List.mem_cons_of_mem _ hy))
    rcases hev : lookupField rfields "eventSource" with _ | v
    · simp [validateInnerRecords, pyGet, hev, isStr, specInnerValid, ihh]
    · cases hveq : isStr v "aws:s3" with
      | false =>
        simp [validateInnerRecords, pyGet, hev, hveq, specInnerValid, ihh]
      | true =>
        rcases hs3f : lookupField rfields "s3" with _ | sv
        · simp [validateInnerRecords, pyGet, pyContains, hev, hveq, hs3f,
            specInnerValid, ihh]
        · obtain ⟨sfields, rfl⟩ := hs3 sv hs3f
          cases hb : (lookupField sfields "bucket").isSome with
          | false =>
            simp [validateInnerRecords, pyGet, pyContains, pySubscript, hev,
              hveq, hs3f, hb, specInnerValid, ihh]
          | true =>
            cases ho : (lookupField sfields "object").isSome with
            | false =>
              simp [validateInnerRecords, pyGet, pyContains, pySubscript, hev,
                hveq, hs3f, hb, ho, specInnerValid, ihh]
            | true =>
              simp [validateInnerRecords, pyGet, pyContains, pySubscript, hev,
                hveq, hs3f, hb, ho, specInnerValid, ihh]

/-- Claim C9: the reference validator is a pure, read-only predicate (in
this embedding it is a function of the body alone: no backend or
environment oracle, no event trace) and, on bodies of the documented
shapes, it returns true exactly when the wrapped-notification form has at
least one inner record with a storage event-source tag and a populated
bucket/object reference, or the direct form has both a non-empty bucket
name and a non-empty object key — and false otherwise. -/
theorem claim_C9_validator_matches_spec (fs : List (String × JVal))
    (h : wellShapedBody fs) :
    validate_s3_notification (JVal.obj fs) =
      .ok (isValidReference_spec (JVal.obj fs)) := by
  obtain ⟨harr, hrec, hdir⟩ := h
  rcases hR : lookupField fs "Records" with _ | v
  · obtain ⟨hbuck, hobj⟩ := hdir hR
    rcases hb : lookupField fs "bucket" with _ | bv
    · simp [validate_s3_notification, pyContains, hR, hb, isValidReference_spec]
    · obtain ⟨bfields, rfl, hname⟩ := hbuck bv hb
      rcases ho : lookupField fs "object" with _ | ov
      · simp [validate_s3_notification, pyContains, hR, hb, ho,
          isValidReference_spec]
      · obtain ⟨ofields, rfl, hkey⟩ := hobj ov ho
        rcases hn : lookupField bfields "name" with _ | w
        · simp [validate_s3_notification, pyContains, pySubscript, pyGet,
            truthy, hR, hb, ho, hn, isValidReference_spec]
        · obtain ⟨s, rfl⟩ := hname w hn
          cases hts : (s != "") with
          | false =>
            simp [validate_s3_notification, pyContains, pySubscript, pyGet,
              truthy, hR, hb, ho, hn, hts, isValidReference_spec]
          | true =>
            rcases hk : lookupField ofields "key" with _ | w2
            · simp [validate_s3_notification, pyContains, pySubscript, pyGet,
                truthy, hR, hb, ho, hn, hts, hk, isValidReference_spec]
            · obtain ⟨s2, rfl⟩ := hkey w2 hk
              cases hts2 : (s2 != "") with
              | false =>
                simp [validate_s3_notification, pyContains, pySubscript, pyGet,
                  truthy, hR, hb, ho, hn, hts, hk, hts2, isValidReference_spec]
              | true =>
                simp [validate_s3_notification, pyContains, pySubscript, pyGet,
                  truthy, hR, hb, ho, hn, hts, hk, hts2, isValidReference_spec]
  · obtain ⟨rs, rfl⟩ := harr v hR
    have hloop := validateInnerRecords_eq_spec rs (hrec rs hR)
    simp [validate_s3_notification, pyContains, pySubscript, pyIter, hR, hloop,
      isValidReference_spec]

/-- Witness for claim C9 on a concrete direct-form body. -/
theorem claim_C9_validator_matches_spec_witness :
    validate_s3_notification (directBody "b" "k") =
      .ok (isValidReference_spec (directBody "b" "k")) :=
  claim_C9_validator_matches_spec
    [("bucket", JVal.obj [("name", JVal.str "b")]),
     ("object", JVal.obj [("key", JVal.str "k")])]
    (by
      refine ⟨?_, ?_, ?_⟩
      · intro v hv
        simp [lookupField] at hv
      · intro rs hrs
        simp [lookupField] at hrs
      · intro _
        constructor
        · intro v hv
          simp [lookupField] at hv
          refine ⟨[("name", JVal.str "b")], hv.symm, ?_⟩
          intro w hw
          simp [lookupField] at hw
          exact ⟨"b", hw.symm⟩
        · intro v hv
          simp [lookupField] at hv
          refine ⟨[("key", JVal.str "k")], hv.symm, ?_⟩
          intro w hw
          simp [lookupField] at hw
          exact ⟨"k", hw.symm⟩)

end S3Replicator
